import Mathlib

/-!
Verification development for the zerodha-cli repository.

The definitions below are a shallow embedding of the repository's core:
the instrument CSV cache (src/core/src/cache/cache.rs), the Kite Connect
client (src/core/src/api/client.rs), the auth flows (src/core/src/auth/auth.rs
and src/src/commands/auth.rs), the retrying HTTP wrapper (src/src/http.rs)
and the rate limiter polling loop (src/core/src/api/rate_limiter.rs).

Modelling conventions:
* Rust strings are Lean `String`s; where byte indices matter (the
  redaction helper uses byte ranges) strings are byte lists (`List Nat`,
  each entry < 256, UTF-8).
* Fallible Rust code returns `Except`/`Option`; a Rust panic is `none`.
* The file system seen by the cache is a map from file name to
  (content, modification time in seconds).
* `f64` fields of `Instrument` (last_price, strike, tick_size) are
  modelled by their serde/ryu decimal rendering, a string: the ryu
  serializer used by the csv crate renders every finite f64 to the unique
  shortest string that parses back to the same value, so on finite floats
  the rendering is an injection and field-for-field equality of floats
  coincides with equality of their renderings.
* Third-party crates (csv, sha2, governor) are modelled from their
  documented behaviour; each such definition says so in its doc comment.
-/

namespace ZerodhaCli

/-- Decidable equality for `Except`, used to evaluate the embedded
operations at concrete inputs. -/
def exceptToSum {ε α : Type} : Except ε α → Sum ε α
  | .error e => .inl e
  | .ok a => .inr a

instance {ε α : Type} [DecidableEq ε] [DecidableEq α] :
    DecidableEq (Except ε α) := fun a b =>
  decidable_of_iff (exceptToSum a = exceptToSum b) (by
    cases a <;> cases b <;> simp [exceptToSum])

/-! ## CSV layer

Modelled from the csv crate defaults used by `csv::Writer::from_path` and
`csv::Reader::from_path`: delimiter `,`; the writer quotes a field only
when necessary, i.e. when it contains a quote, the delimiter or a record
terminator byte (`\r` or `\n`), doubling quotes inside quoted fields, and
terminates records with `\n`; the reader accepts `\r`, `\n` or `\r\n` as a
record terminator, skips empty lines, and treats a quote as opening a
quoted field only at the start of a field. -/

def specialChar (c : Char) : Bool :=
  c = '"' || c = ',' || c = '\r' || c = '\n'

def stopChar (c : Char) : Bool :=
  c = ',' || c = '\r' || c = '\n'

def needsQuote (s : List Char) : Bool :=
  s.any specialChar

def escapeQuotes : List Char → List Char
  | [] => []
  | c :: t => if c = '"' then '"' :: '"' :: escapeQuotes t else c :: escapeQuotes t

def encodeField (s : List Char) : List Char :=
  if needsQuote s then '"' :: (escapeQuotes s ++ ['"']) else s

/-- Fields of one record joined by `,`. -/
def joinFields : List (List Char) → List Char
  | [] => []
  | f :: fs =>
    match fs with
    | [] => encodeField f
    | _ :: _ => encodeField f ++ ',' :: joinFields fs

/-- One CSV record: fields joined by `,`, terminated by `\n`. -/
def encodeRecord (fs : List (List Char)) : List Char :=
  joinFields fs ++ ['\n']

def encodeTable (rows : List (List (List Char))) : List Char :=
  (rows.map encodeRecord).flatten

/-- Consume a field separator: end of input, `,`, or a record terminator
(`\r\n`, `\r` or `\n`).  Returns `true` when the record ended. -/
def afterSep : List Char → Option (Bool × List Char)
  | [] => some (true, [])
  | c :: t =>
    if c = ',' then some (false, t)
    else if c = '\r' then
      match t with
      | [] => some (true, [])
      | n :: t2 => if n = '\n' then some (true, t2) else some (true, n :: t2)
    else if c = '\n' then some (true, t)
    else none

/-- Body of a quoted field, after the opening quote.  A doubled quote is a
literal quote; a single quote closes the field.  `none` models an
unterminated quoted field (a csv read error). -/
def parseQuotedBody (acc : List Char) : List Char → Option (List Char × List Char)
  | [] => none
  | c :: t =>
    if c = '"' then
      match t with
      | [] => some (acc, [])
      | q :: t2 =>
        if q = '"' then parseQuotedBody (acc ++ ['"']) t2
        else some (acc, q :: t2)
    else parseQuotedBody (acc ++ [c]) t

/-- An unquoted field: everything up to the first `,`, `\r` or `\n`.
Quotes not at the start of a field are literal data. -/
def parseUnquoted (acc : List Char) : List Char → List Char × List Char
  | [] => (acc, [])
  | c :: t => if stopChar c then (acc, c :: t) else parseUnquoted (acc ++ [c]) t

/-- One field.  Returns the field, whether the record ended, and the rest. -/
def parseField : List Char → Option (List Char × Bool × List Char)
  | [] => some ([], true, [])
  | c :: t =>
    if c = '"' then
      match parseQuotedBody [] t with
      | none => none
      | some (f, r) =>
        match afterSep r with
        | none => none
        | some (e, r2) => some (f, e, r2)
    else
      match parseUnquoted [] (c :: t) with
      | (f, r) =>
        match afterSep r with
        | none => none
        | some (e, r2) => some (f, e, r2)

/-- One record: fields until a record terminator.  Fuel bounds the number
of fields; the callers pass at least `input.length + 1`. -/
def parseRecord : Nat → List Char → Option (List (List Char) × List Char)
  | 0, _ => none
  | fuel + 1, input =>
    match parseField input with
    | none => none
    | some (f, true, r) => some ([f], r)
    | some (f, false, r) =>
      match parseRecord fuel r with
      | none => none
      | some (fs, r2) => some (f :: fs, r2)

/-- All records of a file.  Empty lines (records that are one empty field)
are skipped, as the csv reader does.  Fuel bounds the number of records. -/
def parseTableAux : Nat → List Char → Option (List (List (List Char)))
  | _, [] => some []
  | 0, _ :: _ => none
  | fuel + 1, c :: cs =>
    match parseRecord ((c :: cs).length + 1) (c :: cs) with
    | none => none
    | some (r, rest) =>
      match parseTableAux fuel rest with
      | none => none
      | some rs => some (if r = [[]] then rs else r :: rs)

def parseTable (input : List Char) : Option (List (List (List Char))) :=
  parseTableAux (input.length + 1) input

/-! ## Decimal rendering and parsing of the integer fields

Models how serde renders `u64`/`u32` values into a CSV field and parses
them back. -/

/-- Big-endian decimal digits of `n`, accumulated onto `acc`.  The fuel is
an upper bound on the number of divisions; `n` itself is always enough. -/
def renderNatFuel : Nat → Nat → List Char → List Char
  | 0, _, acc => acc
  | fuel + 1, n, acc =>
    if n = 0 then acc
    else renderNatFuel fuel (n / 10) (Nat.digitChar (n % 10) :: acc)

def renderNat (n : Nat) : List Char :=
  if n = 0 then ['0'] else renderNatFuel (n + 1) n []

def digitVal? (c : Char) : Option Nat :=
  if '0' ≤ c ∧ c ≤ '9' then some (c.toNat - 48) else none

def parseNatAux : Nat → List Char → Option Nat
  | acc, [] => some acc
  | acc, c :: t =>
    match digitVal? c with
    | none => none
    | some d => parseNatAux (acc * 10 + d) t

/-- Strict decimal parse: nonempty, all digits. -/
def parseNat? (s : List Char) : Option Nat :=
  if s = [] then none else parseNatAux 0 s

/-! ## Instrument records (src/core/src/models/mod.rs) -/

/-- Transparent alias, needed because `InstrumentType` has a variant
named `Option` that shadows the type inside its own namespace. -/
abbrev Opt (α : Type) : Type := Option α

inductive InstrumentType
  | Equity | CallOption | PutOption | Future | FutureAbbrev | Option
deriving DecidableEq

/-- The serde rename written to and read from CSV. -/
def InstrumentType.toCsv : InstrumentType → String
  | .Equity => "EQ"
  | .CallOption => "CE"
  | .PutOption => "PE"
  | .Future => "FUT"
  | .FutureAbbrev => "F"
  | .Option => "O"

def InstrumentType.fromCsv? (s : String) : Opt InstrumentType :=
  if s = "EQ" then some .Equity
  else if s = "CE" then some .CallOption
  else if s = "PE" then some .PutOption
  else if s = "FUT" then some .Future
  else if s = "F" then some .FutureAbbrev
  else if s = "O" then some .Option
  else none

inductive Segment
  | NSE | BSE | NFO | BFO | MCX | CDS
deriving DecidableEq

def Segment.toCsv : Segment → String
  | .NSE => "NSE"
  | .BSE => "BSE"
  | .NFO => "NFO"
  | .BFO => "BFO"
  | .MCX => "MCX"
  | .CDS => "CDS"

def Segment.fromCsv? (s : String) : Option Segment :=
  if s = "NSE" then some .NSE
  else if s = "BSE" then some .BSE
  else if s = "NFO" then some .NFO
  else if s = "BFO" then some .BFO
  else if s = "MCX" then some .MCX
  else if s = "CDS" then some .CDS
  else none

inductive Exchange
  | NSE | BSE | NFO | BFO | MCX | CDS
deriving DecidableEq

def Exchange.toCsv : Exchange → String
  | .NSE => "NSE"
  | .BSE => "BSE"
  | .NFO => "NFO"
  | .BFO => "BFO"
  | .MCX => "MCX"
  | .CDS => "CDS"

def Exchange.fromCsv? (s : String) : Option Exchange :=
  if s = "NSE" then some .NSE
  else if s = "BSE" then some .BSE
  else if s = "NFO" then some .NFO
  else if s = "BFO" then some .BFO
  else if s = "MCX" then some .MCX
  else if s = "CDS" then some .CDS
  else none

/-- Model of `Instrument` from src/core/src/models/mod.rs, fields in declaration
order.  `u64`/`u32` fields are `Nat`; the `f64` fields (`last_price`,
`strike`, `tick_size`) are modelled by their decimal rendering (see the
header comment). -/
structure Instrument where
  instrument_token : Nat
  exchange_token : Nat
  tradingsymbol : String
  name : String
  last_price : Option String
  expiry : Option String
  strike : Option String
  tick_size : String
  lot_size : Nat
  instrument_type : InstrumentType
  segment : Segment
  exchange : Exchange
deriving DecidableEq

/-- An absent optional serializes to an empty field; a present one to its
value.  (This is where `some ""` and `none` collapse.) -/
def encodeOpt : Option String → List Char
  | none => []
  | some s => s.data

/-- An empty field deserializes to `none`, a nonempty one to its value. -/
def decodeOpt : List Char → Option String
  | [] => none
  | cs => some (String.mk cs)

/-- CSV row of an instrument: each field rendered to its string, in struct
field order, exactly as `csv::Writer::serialize` emits it. -/
def Instrument.toRow (i : Instrument) : List (List Char) :=
  [ renderNat i.instrument_token
  , renderNat i.exchange_token
  , i.tradingsymbol.data
  , i.name.data
  , encodeOpt i.last_price
  , encodeOpt i.expiry
  , encodeOpt i.strike
  , i.tick_size.data
  , renderNat i.lot_size
  , i.instrument_type.toCsv.data
  , i.segment.toCsv.data
  , i.exchange.toCsv.data ]

/-- Header row written by `csv::Writer::serialize` for `Instrument`:
the field names in declaration order. -/
def headerRow : List (List Char) :=
  [ "instrument_token", "exchange_token", "tradingsymbol", "name"
  , "last_price", "expiry", "strike", "tick_size", "lot_size"
  , "instrument_type", "segment", "exchange" ].map String.data

/-- Deserialize one CSV row into an `Instrument`; `none` is a csv/serde
deserialization error. -/
def decodeRow (row : List (List Char)) : Option Instrument :=
  match row with
  | [it, et, ts, nm, lp, ex, st, tk, ls, ity, seg, exch] =>
    match parseNat? it, parseNat? ls,
          InstrumentType.fromCsv? (String.mk ity),
          Segment.fromCsv? (String.mk seg),
          Exchange.fromCsv? (String.mk exch) with
    | some itv, some lsv, some ityv, some segv, some exchv =>
      match parseNat? et with
      | some etv =>
        some { instrument_token := itv
             , exchange_token := etv
             , tradingsymbol := String.mk ts
             , name := String.mk nm
             , last_price := decodeOpt lp
             , expiry := decodeOpt ex
             , strike := decodeOpt st
             , tick_size := String.mk tk
             , lot_size := lsv
             , instrument_type := ityv
             , segment := segv
             , exchange := exchv }
      | none => none
    | _, _, _, _, _ => none
  | _ => none

/-- File content `save` produces: nothing for an empty list (the csv
writer emits the header only when the first record is serialized),
otherwise the header row followed by one row per instrument. -/
def saveCsv (l : List Instrument) : List Char :=
  match l with
  | [] => []
  | _ => encodeTable (headerRow :: l.map Instrument.toRow)

/-- Deserialize the data rows one after the other, stopping at the first
error, as the `rdr.deserialize()` loop in `load` does. -/
def decodeRows : List (List (List Char)) → Option (List Instrument)
  | [] => some []
  | r :: rs =>
    match decodeRow r with
    | none => none
    | some i =>
      match decodeRows rs with
      | none => none
      | some l => some (i :: l)

/-- What `load` does to a file body: parse the CSV, check the header, and
deserialize every remaining row.  An empty file yields no records.
(The csv deserializer maps columns to struct fields through the header
names; files written by `save` carry exactly `headerRow`, whose
name-based mapping is the positional one modelled here.) -/
def loadCsv (content : List Char) : Option (List Instrument) :=
  match parseTable content with
  | none => none
  | some [] => some []
  | some (h :: rows) =>
    if h = headerRow then decodeRows rows else none

/-! ## The instrument cache (src/core/src/cache/cache.rs)

The cache directory is modelled as a map from file name to file content
plus modification time (seconds).  `cache_file` lower-cases the exchange
and appends `.csv`. -/

structure CacheFs where
  files : String → Option (List Char × Int)

inductive CacheError
  | cacheMiss (exchange : String)
  | parseError
deriving DecidableEq

/-- ASCII lower-casing of one character.  Models Rust `to_lowercase` on
the strings the cache is keyed by (exchange codes are ASCII). -/
def lowerChar (c : Char) : Char :=
  if 'A' ≤ c ∧ c ≤ 'Z' then Char.ofNat (c.toNat + 32) else c

def lowerAscii (s : String) : String :=
  String.mk (s.data.map lowerChar)

def cacheKey (exchange : String) : String :=
  lowerAscii exchange ++ ".csv"

namespace InstrumentCache

/-- Model of `InstrumentCache::save`: serialize and overwrite the exchange's file;
the file's modification time becomes the current time. -/
def save (exchange : String) (instruments : List Instrument) (now : Int)
    (fs : CacheFs) : CacheFs :=
  ⟨fun k => if k = cacheKey exchange then some (saveCsv instruments, now)
            else fs.files k⟩

/-- Model of `InstrumentCache::load`: missing file is a cache miss; a malformed
file is a parse error. -/
def load (exchange : String) (fs : CacheFs) :
    Except CacheError (List Instrument) :=
  match fs.files (cacheKey exchange) with
  | none => .error (.cacheMiss exchange)
  | some (content, _) =>
    match loadCsv content with
    | none => .error .parseError
    | some l => .ok l

/-- Model of `InstrumentCache::is_valid`: the file exists and
`(now - modified).num_hours() < 24`; chrono's `num_hours` truncates
toward zero, which is `Int.tdiv`. -/
def isValid (exchange : String) (fs : CacheFs) (now : Int) : Bool :=
  match fs.files (cacheKey exchange) with
  | none => false
  | some (_, modified) => (now - modified).tdiv 3600 < 24

end InstrumentCache

/-! ## Round-trip lemmas for the CSV layer -/

/-- The remaining input does not begin with a quote (true after every
field the writer emits: what follows is a separator or a terminator). -/
def headNotQuote : List Char → Prop
  | [] => True
  | c :: _ => c ≠ '"'

/-- The remaining input is empty or begins with a stop character. -/
def headStop : List Char → Prop
  | [] => True
  | c :: _ => stopChar c = true

/-- A record round-trips exactly when no optional field holds a present
but empty string (an absent optional and a present empty one serialize to
the same empty CSV field). -/
def instrumentOk (i : Instrument) : Prop :=
  i.last_price ≠ some "" ∧ i.expiry ≠ some "" ∧ i.strike ≠ some ""

instance (i : Instrument) : Decidable (instrumentOk i) := by
  unfold instrumentOk
  infer_instance

/-! ## Claim C1 -/

def instrumentsOk (l : List Instrument) : Prop := ∀ i ∈ l, instrumentOk i

instance (l : List Instrument) : Decidable (instrumentsOk l) := by
  unfold instrumentsOk
  infer_instance

def emptyFs : CacheFs := ⟨fun _ => none⟩

/-- A record with every optional field present. -/
def instAllPresent : Instrument :=
  { instrument_token := 256265, exchange_token := 1001
  , tradingsymbol := "NIFTY24JUN23000CE", name := "NIFTY"
  , last_price := some "125.5", expiry := some "2024-06-27"
  , strike := some "23000", tick_size := "0.05", lot_size := 50
  , instrument_type := .CallOption, segment := .NFO, exchange := .NFO }

/-- A record with every optional field absent. -/
def instAllAbsent : Instrument :=
  { instrument_token := 738561, exchange_token := 2885
  , tradingsymbol := "RELIANCE", name := "RELIANCE INDUSTRIES"
  , last_price := none, expiry := none
  , strike := none, tick_size := "0.05", lot_size := 1
  , instrument_type := .Equity, segment := .NSE, exchange := .NSE }

/-- A record whose `expiry` is present but empty. -/
def instEmptyExpiry : Instrument :=
  { instAllAbsent with expiry := some "" }

/-! ## Error taxonomy

The error kinds the client code produces: `handle_error` in
src/core/src/api/client.rs classifies non-2xx statuses (each carrying the
redacted body), `execute` wraps transport failures, `get_access_token`
produces the not-authenticated error, the rate limiter its timeout, and
the cache its miss/parse errors. -/

inductive ApiError
  | notAuthenticated
  | authenticationFailed (body : List Nat)
  | forbidden (body : List Nat)
  | rateLimit
  | clientError (body : List Nat)
  | serverError (body : List Nat)
  | unexpected (body : List Nat)
  | transport (msg : String)
  | parseJson
  | rateLimitTimeout
  | cacheMiss (exchange : String)
  | cacheParse
deriving DecidableEq

def liftCacheError : CacheError → ApiError
  | .cacheMiss e => .cacheMiss e
  | .parseError => .cacheParse

/-! ## Claim C8: InstrumentCache::load_or_refresh

`fetched` is the outcome of the one `list_instruments` network call that
`refresh` would make; the `Nat` in the result counts network fetches
performed. -/

namespace InstrumentCache

/-- Model of `InstrumentCache::refresh`: fetch from the API (one network call);
on success save to the cache and return the fetched records; on failure
surface the error. -/
def refresh (exchange : String) (fetched : Except ApiError (List Instrument))
    (now : Int) (fs : CacheFs) :
    Except ApiError (List Instrument) × CacheFs × Nat :=
  match fetched with
  | .error e => (.error e, fs, 1)
  | .ok l => (.ok l, save exchange l now fs, 1)

/-- Model of `InstrumentCache::load_or_refresh`: refresh when forced or when the
cache is stale, otherwise load from disk with no network call. -/
def load_or_refresh (exchange : String) (force : Bool)
    (fetched : Except ApiError (List Instrument)) (now : Int) (fs : CacheFs) :
    Except ApiError (List Instrument) × CacheFs × Nat :=
  if force || !(isValid exchange fs now) then refresh exchange fetched now fs
  else
    match load exchange fs with
    | .error e => (.error (liftCacheError e), fs, 0)
    | .ok l => (.ok l, fs, 0)

end InstrumentCache

/-- First call of the C8 counterexample scenario: empty cache, the fetch
returns one record whose `expiry` is `Some("")`. -/
def c8FirstCall : Except ApiError (List Instrument) × CacheFs × Nat :=
  InstrumentCache.load_or_refresh "NSE" false (.ok [instEmptyExpiry]) 0 emptyFs

/-- Immediate repeat call with `forceRefresh = false`; its would-be
network outcome is a transport failure, which shows it is not consulted. -/
def c8SecondCall : Except ApiError (List Instrument) × CacheFs × Nat :=
  InstrumentCache.load_or_refresh "NSE" false (.error (.transport "offline")) 0
    c8FirstCall.2.1

/-! ## Secret redaction (redact_secrets, src/core/src/api/client.rs 479-495)

Rust strings are UTF-8 byte sequences and `find`/`replace_range` work on
byte indices, so this part of the model is byte-level: a string is a
`List Nat` of bytes.  A Rust panic (out-of-bounds or non-char-boundary
`replace_range`) is `none`. -/

/-- Bytes of an ASCII string literal. -/
def asciiBytes (s : String) : List Nat := s.data.map Char.toNat

def apiSecretAnchor : List Nat := asciiBytes "api_secret\":"

def apiSecretMask : List Nat := asciiBytes "api_secret\":\"***\""

def accessTokenAnchor : List Nat := asciiBytes "access_token\":"

def accessTokenMask : List Nat := asciiBytes "access_token\":\"***\""

def tokenWord : List Nat := asciiBytes "token"

def tokenMaskWord : List Nat := asciiBytes "token ***"

def isPrefixBytes : List Nat → List Nat → Bool
  | [], _ => true
  | _ :: _, [] => false
  | p :: ps, b :: bs => p = b && isPrefixBytes ps bs

/-- First byte index at which `pat` occurs, as Rust `str::find`. -/
def findSub (pat : List Nat) : List Nat → Option Nat
  | [] => if isPrefixBytes pat [] then some 0 else none
  | b :: t =>
    if isPrefixBytes pat (b :: t) then some 0
    else (findSub pat t).map (· + 1)

/-- A UTF-8 continuation byte (0b10xxxxxx). -/
def isContinuation (b : Nat) : Bool := 128 ≤ b && b < 192

/-- Rust `str::is_char_boundary`. -/
def isCharBoundary (s : List Nat) (i : Nat) : Bool :=
  if i = 0 then true
  else if h : i < s.length then !(isContinuation (s.get ⟨i, h⟩))
  else i = s.length

/-- Rust `String::replace_range(start..stop, repl)`; `none` is the panic
on an out-of-bounds index or a non-char-boundary index. -/
def replaceRange (s : List Nat) (start stop : Nat) (repl : List Nat) :
    Option (List Nat) :=
  if start ≤ stop ∧ isCharBoundary s start ∧ isCharBoundary s stop then
    some (s.take start ++ repl ++ s.drop stop)
  else none

/-- Rust `str::replace(pat, repl)` for the fixed pattern `token`:
replaces every non-overlapping occurrence, left to right. -/
def replaceAllFuel : Nat → List Nat → List Nat
  | 0, s => s
  | fuel + 1, s =>
    match s with
    | [] => []
    | b :: t =>
      if isPrefixBytes tokenWord (b :: t) then
        tokenMaskWord ++ replaceAllFuel fuel ((b :: t).drop tokenWord.length)
      else b :: replaceAllFuel fuel t

def replaceTokenAll (s : List Nat) : List Nat := replaceAllFuel s.length s

/-- First half of `redact_secrets`: mask a fixed 20-byte window at the
first `api_secret":` anchor, if any. -/
def redactStep1 (text : List Nat) : Option (List Nat) :=
  match findSub apiSecretAnchor text with
  | none => some text
  | some p => replaceRange text p (p + 20) apiSecretMask

/-- Model of `redact_secrets`: mask a fixed 20-byte window at the first
`api_secret":` anchor, then a fixed 30-byte window at the first
`access_token":` anchor, then rewrite every `token` to `token ***`.
`none` models the `replace_range` panic. -/
def redactSecrets (text : List Nat) : Option (List Nat) :=
  match redactStep1 text with
  | none => none
  | some s1 =>
    match findSub accessTokenAnchor s1 with
    | none => some (replaceTokenAll s1)
    | some p =>
      match replaceRange s1 p (p + 30) accessTokenMask with
      | none => none
      | some s2 => some (replaceTokenAll s2)

/-- The status-code classification of `handle_error`
(src/core/src/api/client.rs 128-144), applied to the redacted body. -/
def classifyStatus (status : Nat) (redacted : List Nat) : ApiError :=
  if status = 401 then .authenticationFailed redacted
  else if status = 403 then .forbidden redacted
  else if status = 429 then .rateLimit
  else if 400 ≤ status ∧ status ≤ 499 then .clientError redacted
  else if 500 ≤ status ∧ status ≤ 599 then .serverError redacted
  else .unexpected redacted

/-- Model of `handle_error`: redact then classify; `none` is the redaction panic. -/
def handle_error (status : Nat) (body : List Nat) : Option ApiError :=
  (redactSecrets body).map (classifyStatus status)

/-! ## SHA-256

Modelled from the spec: the source delegates to the sha2 crate; this is
the FIPS 180-4 algorithm over byte lists, 32-bit words as `Nat` reduced
mod 2^32. -/

def w32 (n : Nat) : Nat := n % 4294967296

def rotr (k n : Nat) : Nat := w32 ((n >>> k) ||| (n <<< (32 - k)))

def notW (x : Nat) : Nat := x ^^^ 4294967295

def chW (x y z : Nat) : Nat := (x &&& y) ^^^ (notW x &&& z)

def majW (x y z : Nat) : Nat := (x &&& y) ^^^ (x &&& z) ^^^ (y &&& z)

def bigSigma0 (x : Nat) : Nat := rotr 2 x ^^^ rotr 13 x ^^^ rotr 22 x

def bigSigma1 (x : Nat) : Nat := rotr 6 x ^^^ rotr 11 x ^^^ rotr 25 x

def smallSigma0 (x : Nat) : Nat := rotr 7 x ^^^ rotr 18 x ^^^ (x >>> 3)

def smallSigma1 (x : Nat) : Nat := rotr 17 x ^^^ rotr 19 x ^^^ (x >>> 10)

def shaK : List Nat :=
  [ 1116352408, 1899447441, 3049323471, 3921009573
  , 961987163, 1508970993, 2453635748, 2870763221
  , 3624381080, 310598401, 607225278, 1426881987
  , 1925078388, 2162078206, 2614888103, 3248222580
  , 3835390401, 4022224774, 264347078, 604807628
  , 770255983, 1249150122, 1555081692, 1996064986
  , 2554220882, 2821834349, 2952996808, 3210313671
  , 3336571891, 3584528711, 113926993, 338241895
  , 666307205, 773529912, 1294757372, 1396182291
  , 1695183700, 1986661051, 2177026350, 2456956037
  , 2730485921, 2820302411, 3259730800, 3345764771
  , 3516065817, 3600352804, 4094571909, 275423344
  , 430227734, 506948616, 659060556, 883997877
  , 958139571, 1322822218, 1537002063, 1747873779
  , 1955562222, 2024104815, 2227730452, 2361852424
  , 2428436474, 2756734187, 3204031479, 3329325298 ]

def shaH0 : List Nat :=
  [ 1779033703, 3144134277, 1013904242, 2773480762
  , 1359893119, 2600822924, 528734635, 1541459225 ]

/-- Big-endian byte rendering: `k` bytes of `n`. -/
def toBytesBE : Nat → Nat → List Nat
  | 0, _ => []
  | k + 1, n => toBytesBE k (n / 256) ++ [n % 256]

/-- Append `0x80`, zero padding, and the 64-bit big-endian bit length. -/
def padMessage (msg : List Nat) : List Nat :=
  msg ++ 128 :: List.replicate ((119 - msg.length % 64) % 64) 0
    ++ toBytesBE 8 (msg.length * 8)

def bytesToWords : List Nat → List Nat
  | a :: b :: c :: d :: rest => (((a * 256 + b) * 256 + c) * 256 + d) :: bytesToWords rest
  | _ => []

def chunkWordsFuel : Nat → List Nat → List (List Nat)
  | 0, _ => []
  | _ + 1, [] => []
  | fuel + 1, w :: rest => ((w :: rest).take 16) :: chunkWordsFuel fuel ((w :: rest).drop 16)

def chunkWords (ws : List Nat) : List (List Nat) := chunkWordsFuel ws.length ws

/-- Extend the 16-word block to the 64-entry message schedule. -/
def extendSchedule : Nat → List Nat → List Nat
  | 0, w => w
  | k + 1, w =>
    let t := w.length
    let wt := w32 (smallSigma1 (w.getD (t - 2) 0) + w.getD (t - 7) 0
      + smallSigma0 (w.getD (t - 15) 0) + w.getD (t - 16) 0)
    extendSchedule k (w ++ [wt])

def schedule (block : List Nat) : List Nat := extendSchedule 48 block

def compressStep (st : List Nat) (kw : Nat × Nat) : List Nat :=
  match st with
  | [a, b, c, d, e, f, g, h] =>
    let t1 := w32 (h + bigSigma1 e + chW e f g + kw.1 + kw.2)
    let t2 := w32 (bigSigma0 a + majW a b c)
    [w32 (t1 + t2), a, b, c, w32 (d + t1), e, f, g]
  | other => other

def compressBlock (h : List Nat) (block : List Nat) : List Nat :=
  let st := (shaK.zip (schedule block)).foldl compressStep h
  (h.zip st).map (fun p => w32 (p.1 + p.2))

def sha256Bytes (msg : List Nat) : List Nat :=
  let hfinal := (chunkWords (bytesToWords (padMessage msg))).foldl compressBlock shaH0
  (hfinal.map (toBytesBE 4)).flatten

/-- UTF-8 encoding of one character. -/
def utf8EncodeChar (c : Char) : List Nat :=
  let n := c.toNat
  if n < 128 then [n]
  else if n < 2048 then [192 + n / 64, 128 + n % 64]
  else if n < 65536 then [224 + n / 4096, 128 + (n / 64) % 64, 128 + n % 64]
  else [240 + n / 262144, 128 + (n / 4096) % 64, 128 + (n / 64) % 64, 128 + n % 64]

def utf8Bytes (s : String) : List Nat := (s.data.map utf8EncodeChar).flatten

def hexByte (b : Nat) : List Char := [Nat.digitChar (b / 16), Nat.digitChar (b % 16)]

def hexEncode (bytes : List Nat) : String := String.mk ((bytes.map hexByte).flatten)

/-- Model of `sha256_digest` (src/core/src/api/client.rs 498-502): hex-encoded
SHA-256 of the UTF-8 bytes of the input. -/
def sha256_digest (input : String) : String := hexEncode (sha256Bytes (utf8Bytes input))

/-! ## The Kite Connect client (src/core/src/api/client.rs) -/

structure HttpRequest where
  method : String
  url : String
  headers : List (String × String)
  /-- The JSON object body, as its field list (empty when no body). -/
  body : List (String × String)
deriving DecidableEq

structure KiteConnectClient where
  api_key : String
  api_secret : String
  access_token : Option String
  base_url : String
deriving DecidableEq

/-- Model of `KiteConnectClient::new`. -/
def KiteConnectClient.new (api_key api_secret : String) : KiteConnectClient :=
  { api_key := api_key, api_secret := api_secret, access_token := none
  , base_url := "https://api.kite.trade" }

/-- Model of `set_access_token`: replaces the whole stored value in one step (the
`RwLock` write). -/
def KiteConnectClient.set_access_token (c : KiteConnectClient) (token : String) :
    KiteConnectClient :=
  { c with access_token := some token }

/-- Model of `get_access_token`: the stored token, or the not-authenticated error
when none is stored. -/
def KiteConnectClient.get_access_token (c : KiteConnectClient) :
    Except ApiError String :=
  match c.access_token with
  | none => .error .notAuthenticated
  | some t => .ok t

/-- Model of `build_request`: unauthenticated request with the fixed headers. -/
def KiteConnectClient.build_request (c : KiteConnectClient) (method path : String) :
    HttpRequest :=
  { method := method, url := c.base_url ++ path
  , headers := [("X-Kite-Version", "3"), ("User-Agent", "zerodha-cli/1.0.0")]
  , body := [] }

/-- Model of `build_auth_request`: fails with the not-authenticated error before
anything else when no token is stored; otherwise adds the
`Authorization: token api_key:access_token` header. -/
def KiteConnectClient.build_auth_request (c : KiteConnectClient)
    (method path : String) : Except ApiError HttpRequest :=
  match c.get_access_token with
  | .error e => .error e
  | .ok token =>
    .ok { method := method, url := c.base_url ++ path
        , headers := [("X-Kite-Version", "3")
            , ("Authorization", "token " ++ c.api_key ++ ":" ++ token)
            , ("User-Agent", "zerodha-cli/1.0.0")]
        , body := [] }

/-- The outcome of one HTTP send, as seen by the client. -/
inductive HttpOutcome
  | transportErr (msg : String)
  | response (status : Nat) (body : List Nat)
deriving DecidableEq

/-- The send-and-classify part of `execute` (src/core/src/api/client.rs
93-114): one send, no retry of any kind; a transport failure or a non-2xx
classification surfaces immediately.  Returns the result and the number
of network sends; the outer `none` is a panic inside error handling. -/
def executeSend (net : HttpOutcome) : Option (Except ApiError (List Nat) × Nat) :=
  match net with
  | .transportErr m => some (.error (.transport m), 1)
  | .response status body =>
    if 200 ≤ status ∧ status ≤ 299 then some (.ok body, 1)
    else
      match handle_error status body with
      | none => none
      | some e => some (.error e, 1)

/-- An authenticated client call: `build_auth_request` then `execute`. -/
def runAuthedCall (c : KiteConnectClient) (method path : String)
    (net : HttpOutcome) : Option (Except ApiError (List Nat) × Nat) :=
  match c.build_auth_request method path with
  | .error e => some (.error e, 0)
  | .ok _ => executeSend net

/-- The six endpoint families of authenticated operations, with the
method and path each family's code passes to `build_auth_request`
(shown for a representative argument where the path is parameterized). -/
inductive AuthedOp
  | instruments
  | quotes
  | orders
  | portfolio
  | margins
  | gtt
deriving DecidableEq

def authedPath : AuthedOp → String
  | .instruments => "/instruments/nse"
  | .quotes => "/quote/NSE:RELIANCE"
  | .orders => "/orders"
  | .portfolio => "/portfolio/holdings"
  | .margins => "/user/margins"
  | .gtt => "/gtt/triggers"

/-- One operation of a family: every family builds its auth request
first, so an auth failure happens before any network activity. -/
def KiteConnectClient.runOp (c : KiteConnectClient) (op : AuthedOp)
    (net : HttpOutcome) : Option (Except ApiError (List Nat) × Nat) :=
  runAuthedCall c "GET" (authedPath op) net

/-- The unauthenticated token-exchange request of `exchange_token`
(src/core/src/api/client.rs 158-171): checksum over
api_key ∥ request_token ∥ api_secret, POST to /session/token with
exactly the three fields. -/
def KiteConnectClient.exchange_token_request (c : KiteConnectClient)
    (request_token : String) : HttpRequest :=
  let checksum_input := c.api_key ++ request_token ++ c.api_secret
  let checksum := sha256_digest checksum_input
  { c.build_request "POST" "/session/token" with
      body := [ ("api_key", c.api_key)
              , ("request_token", request_token)
              , ("checksum", checksum) ] }

/-- The outcome of the token-exchange POST: a transport failure, a
non-2xx response, a 2xx response that fails to parse as `SessionData`,
or a parsed success carrying the returned token. -/
inductive SessionOutcome
  | transportErr (msg : String)
  | httpError (status : Nat) (body : List Nat)
  | malformed
  | success (user_id : String) (access_token : String)
deriving DecidableEq

/-- Model of `exchange_token` (src/core/src/api/client.rs 158-187): on success
stores the returned token and returns it; on any failure the client
state is untouched and the classified error propagates.  The outer
`none` is a panic inside error handling. -/
def KiteConnectClient.exchange_token (c : KiteConnectClient)
    (outcome : SessionOutcome) :
    Option (KiteConnectClient × Except ApiError String) :=
  match outcome with
  | .transportErr m => some (c, .error (.transport m))
  | .httpError status body =>
    match handle_error status body with
    | none => none
    | some e => some (c, .error e)
  | .malformed => some (c, .error .parseJson)
  | .success _ token => some (c.set_access_token token, .ok token)

/-! ## Auth flows (src/core/src/auth/auth.rs and src/src/commands/auth.rs) -/

/-- The persisted config's api section; `token_expiry` (an RFC 3339
string in the code) is modelled as epoch seconds. -/
structure Config where
  api_key : String
  api_secret : String
  access_token : Option String
  token_expiry : Option Int
deriving DecidableEq

/-- Model of `login` (src/core/src/auth/auth.rs 59-80), from the token exchange
on: on success stores the token in the client and, with an expiry of
now + 24h (86400 s), in the config; on failure everything is unchanged
and the error propagates. -/
def login (c : KiteConnectClient) (config : Config)
    (outcome : SessionOutcome) (now : Int) :
    Option (KiteConnectClient × Config × Except ApiError String) :=
  match c.exchange_token outcome with
  | none => none
  | some (c2, .error e) => some (c2, config, .error e)
  | some (c2, .ok token) =>
    some (c2.set_access_token token,
      { config with access_token := some token, token_expiry := some (now + 86400) },
      .ok token)

/-- Model of `logout` (src/core/src/auth/auth.rs 84-94): clears token and expiry
from the config unconditionally; performs no network call at all. -/
def logout (config : Config) : Config :=
  { config with access_token := none, token_expiry := none }

/-- The CLI duplicate's config (src/src/config.rs). -/
structure CliConfig where
  api_key : Option String
  access_token : Option String
deriving DecidableEq

inductive CliError
  | notAuthenticated
  | invalidCredentials
  | transport (msg : String)
deriving DecidableEq

/-- Model of `logout` in src/src/commands/auth.rs 104-118: requires api_key and
token, then calls `invalidate_token` and propagates its failure with `?`
BEFORE clearing the local token.  `invalidateOutcome` is the outcome of
the remote invalidate call. -/
def cliLogout (config : CliConfig) (invalidateOutcome : Except CliError Unit) :
    CliConfig × Except CliError Unit :=
  match config.api_key with
  | none => (config, .error .invalidCredentials)
  | some _ =>
    match config.access_token with
    | none => (config, .error .notAuthenticated)
    | some _ =>
      match invalidateOutcome with
      | .error e => (config, .error e)
      | .ok _ => ({ config with access_token := none }, .ok ())

/-- The checksum exactly as the spec words it: hex-encoded SHA-256 of
the byte concatenation api_key ∥ request_token ∥ api_secret. -/
def specChecksum (api_key request_token api_secret : String) : String :=
  hexEncode (sha256Bytes
    (utf8Bytes api_key ++ utf8Bytes request_token ++ utf8Bytes api_secret))

def clientNoToken : KiteConnectClient := KiteConnectClient.new "key" "secret"

def clientEmptyToken : KiteConnectClient :=
  (KiteConnectClient.new "key" "secret").set_access_token ""

def cPrior : KiteConnectClient :=
  (KiteConnectClient.new "key" "secret").set_access_token "oldtoken"

def cfgPrior : Config :=
  { api_key := "key", api_secret := "secret"
  , access_token := some "oldtoken", token_expiry := some 500 }

def cliCfg0 : CliConfig := ⟨some "key", some "tok"⟩

/-! ## Claim C5: the retrying transport (src/src/http.rs)

Every verb wrapper of `RateLimitedClient` runs the same loop:
`retries = 0; loop: send; Ok(resp) returns immediately (whatever the
status); Err(e) with retries < max_retries (3) increments retries and
sleeps 100 * retries ms; otherwise the error returns`.  The outcome of
the k-th send attempt is `attempts k`. -/

inductive SendOutcome
  | ok (status : Nat) (body : List Nat)
  | err (msg : String)
deriving DecidableEq

/-- The observable trace of one `get`: number of sends, the backoff
sleeps in order (ms), and the result. -/
structure GetTrace where
  sends : Nat
  sleeps : List Nat
  result : Except String (Nat × List Nat)
deriving DecidableEq

/-- The retry loop; `gas = max_retries - retries` keeps the recursion
structural. -/
def getLoop (attempts : Nat → SendOutcome) :
    Nat → Nat → List Nat → GetTrace
  | 0, retries, sleeps =>
    match attempts retries with
    | .ok status body => ⟨retries + 1, sleeps, .ok (status, body)⟩
    | .err m => ⟨retries + 1, sleeps, .error m⟩
  | gas + 1, retries, sleeps =>
    match attempts retries with
    | .ok status body => ⟨retries + 1, sleeps, .ok (status, body)⟩
    | .err _ => getLoop attempts gas (retries + 1) (sleeps ++ [100 * (retries + 1)])

/-- Model of `RateLimitedClient::get` (after the limiter wait): the loop with
`max_retries = 3`, starting at zero retries. -/
def RateLimitedClient.get (attempts : Nat → SendOutcome) : GetTrace :=
  getLoop attempts 3 0 []

/-- Concrete attempt sequence for the C5 witness: two transport failures
then a 500 response. -/
def attemptsTwoErr : Nat → SendOutcome :=
  fun j => if j < 2 then .err "connection timed out" else .ok 500 (asciiBytes "oops")

/-! ## Claim C9: the rate limiter (src/core/src/api/rate_limiter.rs)

Modelled from the spec: the governor crate's `check()` is a token bucket
with capacity 3 credits refilling continuously at 3 credits per second
(design note §9: last-refill instant plus fractional available credit,
recomputed lazily, checked and debited in one atomic step).  To stay in
integers a credit is 1000 units and the refill is 3 units per
millisecond; time is in milliseconds.  The polling loop around `check()`
is the repository's own `acquire`: try immediately, then poll every
100 ms, failing with the rate-limit timeout once the elapsed time
exceeds 30 000 ms. -/

structure Bucket where
  units : Nat
  time : Nat
deriving DecidableEq

/-- Available units at time `t ≥ b.time`: refill at 3 units/ms, capped
at the capacity of 3000 units (3 credits). -/
def Bucket.avail (b : Bucket) (t : Nat) : Nat :=
  min 3000 (b.units + 3 * (t - b.time))

/-- One atomic `check()`: succeed and debit one credit (1000 units) iff
a full credit is available. -/
def Bucket.check (b : Bucket) (t : Nat) : Option Bucket :=
  if 1000 ≤ b.avail t then some ⟨b.avail t - 1000, t⟩ else none

/-- A bucket that is full at time `t`. -/
def Bucket.full (t : Nat) : Bucket := ⟨3000, t⟩

/-- The polling loop of `acquire`, over an arbitrary atomic check
function (arbitrary so that interference from concurrent acquirers is
quantified over): poll at `t0 + 100 k`; on success return the check's
value and the completion time; once the elapsed time exceeds 30 000 ms
fail with the timeout (`.error` carries the completion time).  The fuel
keeps the recursion structural; 302 polls always suffice. -/
def acquireGo {α : Type} (chk : Nat → Option α) (t0 : Nat) :
    Nat → Nat → Except Nat (α × Nat)
  | 0, k => .error (t0 + 100 * k)
  | fuel + 1, k =>
    match chk (t0 + 100 * k) with
    | some a => .ok (a, t0 + 100 * k)
    | none =>
      if 30000 < 100 * k then .error (t0 + 100 * k)
      else acquireGo chk t0 fuel (k + 1)

/-- Model of `RateLimiter::acquire` against a bucket: an `.error` is the
rate-limit-timeout failure. -/
def RateLimiter.acquire (b : Bucket) (t0 : Nat) : Except Nat (Bucket × Nat) :=
  acquireGo b.check t0 302 0

/-! ## Claims C6 and C10: redaction -/

/-- Whether `pat` occurs somewhere in `s`. -/
def hasSub (pat s : List Nat) : Bool := (findSub pat s).isSome

/-- Witness inputs for C6: one access-token field whose value is 20 `A`
bytes. -/
def c6WitnessLead : List Nat := asciiBytes "\""

def c6WitnessTail : List Nat := asciiBytes "\"AAAAAAAAAAAAAAAAAAAA\""

/-- C6 counterexample input: a body with two access-token fields, each a
16-byte value. -/
def c6CounterInput : List Nat :=
  asciiBytes
    "\"access_token\":\"AAAAAAAAAAAAAAAA\",\"access_token\":\"BBBBBBBBBBBBBBBB\""

/-- The 12-byte body that is exactly the `api_secret":` anchor:
`replace_range(p..p+20)` runs past the end of the string. -/
def c10ShortInput : List Nat := asciiBytes "api_secret\":"

/-- A body where the 30-byte window after `access_token":` ends inside a
two-byte UTF-8 character. -/
def c10MultibyteInput : List Nat := utf8Bytes "access_token\":AAAAAAAAAAAAAAAé"

/-! ## Proofs -/

theorem parseQuotedBody_escape (s : List Char) :
    ∀ (acc r : List Char), headNotQuote r →
      parseQuotedBody acc (escapeQuotes s ++ '"' :: r) = some (acc ++ s, r) := by
  induction s with
  | nil =>
    intro acc r hr
    cases r with
    | nil =>
      rw [show escapeQuotes [] ++ '"' :: [] = ['"'] from rfl, parseQuotedBody.eq_def]
      simp
    | cons c t =>
      have hc : c ≠ '"' := hr
      rw [show escapeQuotes [] ++ '"' :: c :: t = '"' :: c :: t from rfl,
        parseQuotedBody.eq_def]
      simp [hc]
  | cons c s ih =>
    intro acc r hr
    by_cases hc : c = '"'
    · subst hc
      have h1 : escapeQuotes ('"' :: s) ++ '"' :: r
          = '"' :: '"' :: (escapeQuotes s ++ '"' :: r) := by
        simp [escapeQuotes]
      have h2 : parseQuotedBody acc ('"' :: '"' :: (escapeQuotes s ++ '"' :: r))
          = parseQuotedBody (acc ++ ['"']) (escapeQuotes s ++ '"' :: r) := by
        rw [parseQuotedBody.eq_def]
        simp
      rw [h1, h2, ih _ _ hr]
      simp
    · have h1 : escapeQuotes (c :: s) ++ '"' :: r
          = c :: (escapeQuotes s ++ '"' :: r) := by
        simp [escapeQuotes, hc]
      have h2 : parseQuotedBody acc (c :: (escapeQuotes s ++ '"' :: r))
          = parseQuotedBody (acc ++ [c]) (escapeQuotes s ++ '"' :: r) := by
        rw [parseQuotedBody.eq_def]
        simp [hc]
      rw [h1, h2, ih _ _ hr]
      simp

theorem parseUnquoted_append (s : List Char) :
    ∀ (acc r : List Char), (∀ c ∈ s, stopChar c = false) → headStop r →
      parseUnquoted acc (s ++ r) = (acc ++ s, r) := by
  induction s with
  | nil =>
    intro acc r _ hr
    cases r with
    | nil => simp [parseUnquoted]
    | cons c t =>
      have hc : stopChar c = true := hr
      simp [parseUnquoted, hc]
  | cons c s ih =>
    intro acc r hs hr
    have hc : stopChar c = false := hs c (by simp)
    have h1 : parseUnquoted acc ((c :: s) ++ r)
        = parseUnquoted (acc ++ [c]) (s ++ r) := by
      simp [parseUnquoted, hc]
    rw [h1, ih _ _ (fun d hd => hs d (by simp [hd])) hr]
    simp

theorem afterSep_comma (r : List Char) : afterSep (',' :: r) = some (false, r) := by
  simp [afterSep]

theorem afterSep_nl (r : List Char) : afterSep ('\n' :: r) = some (true, r) := by
  simp [afterSep]

/-- No-special-characters gives no stop characters and no quote. -/
theorem no_special_of_not_needsQuote {f : List Char} (hq : ¬needsQuote f = true) :
    ∀ c ∈ f, specialChar c = false := by
  intro c hc
  by_contra hcon
  exact hq (List.any_eq_true.2 ⟨c, hc, by simpa using hcon⟩)

theorem stop_false_of_special_false {c : Char} (h : specialChar c = false) :
    stopChar c = false := by
  simp [specialChar] at h
  simp [stopChar]
  tauto

theorem ne_quote_of_special_false {c : Char} (h : specialChar c = false) :
    c ≠ '"' := by
  simp [specialChar] at h
  tauto

/-- Shared core of the two `parseField` round trips: `sep` is the
separator character that follows the encoded field. -/
theorem parseField_encode_sep (f r : List Char) (sep : Char)
    (hsep : stopChar sep = true) (hsq : sep ≠ '"') :
    parseField (encodeField f ++ sep :: r)
      = match afterSep (sep :: r) with
        | none => none
        | some (e, r2) => some (f, e, r2) := by
  by_cases hq : needsQuote f = true
  · have h1 : encodeField f ++ sep :: r
        = '"' :: (escapeQuotes f ++ '"' :: (sep :: r)) := by
      simp [encodeField, hq]
    rw [h1]
    have h2 := parseQuotedBody_escape f [] (sep :: r) (by simpa [headNotQuote] using hsq)
    simp [parseField, h2]
  · have hf := no_special_of_not_needsQuote hq
    have hstop : ∀ c ∈ f, stopChar c = false :=
      fun c hc => stop_false_of_special_false (hf c hc)
    cases f with
    | nil =>
      have h2 : parseUnquoted [] (sep :: r) = ([], sep :: r) := by
        simp [parseUnquoted, hsep]
      simp [encodeField, hq, parseField, hsq, h2]
    | cons c t =>
      have hc : c ≠ '"' := ne_quote_of_special_false (hf c (by simp))
      have h1 : encodeField (c :: t) ++ sep :: r = c :: (t ++ sep :: r) := by
        simp [encodeField, hq]
      have h2 : parseUnquoted [] (c :: (t ++ sep :: r)) = ([] ++ (c :: t), sep :: r) := by
        rw [show c :: (t ++ sep :: r) = (c :: t) ++ sep :: r by simp]
        exact parseUnquoted_append (c :: t) [] (sep :: r) hstop (by simp [headStop, hsep])
      rw [h1]
      simp [parseField, hc, h2]

theorem parseField_encode_comma (f r : List Char) :
    parseField (encodeField f ++ ',' :: r) = some (f, false, r) := by
  rw [parseField_encode_sep f r ',' (by decide) (by decide), afterSep_comma]

theorem parseField_encode_nl (f r : List Char) :
    parseField (encodeField f ++ '\n' :: r) = some (f, true, r) := by
  rw [parseField_encode_sep f r '\n' (by decide) (by decide), afterSep_nl]

theorem parseRecord_encode (fs : List (List Char)) :
    ∀ (fuel : Nat) (rest : List Char), fs ≠ [] → fs.length ≤ fuel →
      parseRecord fuel (encodeRecord fs ++ rest) = some (fs, rest) := by
  induction fs with
  | nil => intro fuel rest h _; exact absurd rfl h
  | cons f fs ih =>
    intro fuel rest _ hlen
    cases fuel with
    | zero => simp at hlen
    | succ fuel =>
      cases fs with
      | nil =>
        have : encodeRecord [f] ++ rest = encodeField f ++ '\n' :: rest := by
          simp [encodeRecord, joinFields]
        rw [this]
        simp [parseRecord, parseField_encode_nl]
      | cons g gs =>
        have : encodeRecord (f :: g :: gs) ++ rest
            = encodeField f ++ ',' :: (encodeRecord (g :: gs) ++ rest) := by
          simp [encodeRecord, joinFields]
        rw [this]
        simp only [parseRecord, parseField_encode_comma]
        rw [ih fuel (rest) (by simp) (by simpa using Nat.le_of_succ_le_succ hlen)]

theorem length_le_encodeRecord (fs : List (List Char)) :
    fs.length ≤ (encodeRecord fs).length := by
  induction fs with
  | nil => simp [encodeRecord, joinFields]
  | cons f fs ih =>
    cases fs with
    | nil => simp [encodeRecord, joinFields]
    | cons g t =>
      have h1 : encodeRecord (f :: g :: t)
          = encodeField f ++ ',' :: encodeRecord (g :: t) := by
        simp [encodeRecord, joinFields]
      rw [h1]
      simp only [List.length_cons, List.length_append] at ih ⊢
      omega

theorem one_le_length_encodeRecord (fs : List (List Char)) :
    1 ≤ (encodeRecord fs).length := by
  simp [encodeRecord]

theorem parseTableAux_cons (fuel : Nat) (input : List Char) (h : input ≠ []) :
    parseTableAux (fuel + 1) input =
      match parseRecord (input.length + 1) input with
      | none => none
      | some (r, rest) =>
        match parseTableAux fuel rest with
        | none => none
        | some rs => some (if r = [[]] then rs else r :: rs) := by
  cases input with
  | nil => exact absurd rfl h
  | cons c cs => rfl

theorem parseTableAux_encode (rows : List (List (List Char))) :
    ∀ fuel, (∀ r ∈ rows, 2 ≤ r.length) → rows.length ≤ fuel →
      parseTableAux fuel (encodeTable rows) = some rows := by
  induction rows with
  | nil =>
    intro fuel _ _
    simp [encodeTable, parseTableAux]
  | cons r rs ih =>
    intro fuel hr hlen
    cases fuel with
    | zero => simp at hlen
    | succ fuel =>
      have hr2 : 2 ≤ r.length := hr r (by simp)
      have input_eq : encodeTable (r :: rs) = encodeRecord r ++ encodeTable rs := by
        simp [encodeTable]
      have hne : encodeRecord r ++ encodeTable rs ≠ [] := by
        have := one_le_length_encodeRecord r
        intro h
        have : (encodeRecord r ++ encodeTable rs).length = 0 := by rw [h]; rfl
        simp only [List.length_append] at this
        omega
      rw [input_eq, parseTableAux_cons fuel _ hne]
      have hfuel : r.length ≤ (encodeRecord r ++ encodeTable rs).length + 1 := by
        have h1 := length_le_encodeRecord r
        simp only [List.length_append]
        omega
      rw [parseRecord_encode r _ _ (by intro h; subst h; simp at hr2) hfuel]
      have hih := ih fuel (fun x hx => hr x (by simp [hx]))
        (by simpa using Nat.le_of_succ_le_succ hlen)
      have hne2 : r ≠ [[]] := by
        intro h
        subst h
        simp at hr2
      simp [hih, hne2]

theorem rows_length_le_encodeTable (rows : List (List (List Char))) :
    rows.length ≤ (encodeTable rows).length := by
  induction rows with
  | nil => simp [encodeTable]
  | cons r rs ih =>
    have h1 : encodeTable (r :: rs) = encodeRecord r ++ encodeTable rs := by
      simp [encodeTable]
    have h2 := one_le_length_encodeRecord r
    rw [h1]
    simp only [List.length_cons, List.length_append]
    omega

/-- Parsing inverts encoding for any table whose records all have at
least two fields. -/
theorem parseTable_encode (rows : List (List (List Char)))
    (hr : ∀ r ∈ rows, 2 ≤ r.length) :
    parseTable (encodeTable rows) = some rows := by
  unfold parseTable
  exact parseTableAux_encode rows _ hr
    (Nat.le_succ_of_le (rows_length_le_encodeTable rows))

/-! ## Decimal round trip -/

theorem digitVal?_digitChar {d : Nat} (h : d < 10) :
    digitVal? (Nat.digitChar d) = some d := by
  have hall : ∀ e : Nat, e < 10 → digitVal? (Nat.digitChar e) = some e := by decide
  exact hall d h

theorem renderNatFuel_eq_digits :
    ∀ (fuel n : Nat) (acc : List Char), n ≤ fuel →
      renderNatFuel fuel n acc
        = ((Nat.digits 10 n).reverse.map Nat.digitChar) ++ acc := by
  intro fuel
  induction fuel with
  | zero =>
    intro n acc hn
    interval_cases n
    simp [renderNatFuel]
  | succ fuel ih =>
    intro n acc hn
    by_cases h0 : n = 0
    · subst h0
      simp [renderNatFuel]
    · have hstep : renderNatFuel (fuel + 1) n acc
          = renderNatFuel fuel (n / 10) (Nat.digitChar (n % 10) :: acc) := by
        simp [renderNatFuel, h0]
      have hlt : n / 10 ≤ fuel := by
        have : n / 10 < n := Nat.div_lt_self (Nat.pos_of_ne_zero h0) (by norm_num)
        omega
      rw [hstep, ih _ _ hlt,
        Nat.digits_def' (by norm_num : 1 < 10) (Nat.pos_of_ne_zero h0)]
      simp

theorem parseNatAux_digits (l : List Nat) :
    ∀ acc, (∀ d ∈ l, d < 10) →
      parseNatAux acc (l.map Nat.digitChar)
        = some (l.foldl (fun a d => a * 10 + d) acc) := by
  induction l with
  | nil => intro acc _; simp [parseNatAux]
  | cons d l ih =>
    intro acc hd
    have h1 : digitVal? (Nat.digitChar d) = some d := digitVal?_digitChar (hd d (by simp))
    simp only [List.map_cons, parseNatAux, h1, List.foldl_cons]
    exact ih _ (fun x hx => hd x (by simp [hx]))

theorem foldr_ofDigits (l : List Nat) :
    l.foldr (fun d a => a * 10 + d) 0 = Nat.ofDigits 10 l := by
  induction l with
  | nil => simp [Nat.ofDigits]
  | cons d l ih => simp [Nat.ofDigits, ih]; ring

theorem parseNat?_renderNat (n : Nat) : parseNat? (renderNat n) = some n := by
  by_cases h0 : n = 0
  · subst h0; decide
  · have h1 : renderNat n = (Nat.digits 10 n).reverse.map Nat.digitChar := by
      simp [renderNat, h0, renderNatFuel_eq_digits (n + 1) n [] (by omega)]
    have hdig : ∀ d ∈ (Nat.digits 10 n).reverse, d < 10 := by
      intro d hd
      exact Nat.digits_lt_base (by norm_num) (List.mem_reverse.1 hd)
    have hne : (Nat.digits 10 n).reverse ≠ [] := by
      simp [Nat.digits_ne_nil_iff_ne_zero, h0]
    have h3 : renderNat n ≠ [] := by
      rw [h1]
      simpa using hne
    rw [parseNat?, if_neg h3, h1, parseNatAux_digits _ _ hdig]
    rw [List.foldl_reverse, foldr_ofDigits, Nat.ofDigits_digits]

/-! ## Instrument record round trip -/

theorem mkData (s : String) : String.mk s.data = s := rfl

theorem fromCsv_toCsv_instrumentType (x : InstrumentType) :
    InstrumentType.fromCsv? x.toCsv = some x := by
  cases x <;> decide

theorem fromCsv_toCsv_segment (x : Segment) :
    Segment.fromCsv? x.toCsv = some x := by
  cases x <;> decide

theorem fromCsv_toCsv_exchange (x : Exchange) :
    Exchange.fromCsv? x.toCsv = some x := by
  cases x <;> decide

theorem decodeOpt_data (s : String) (h : s ≠ "") : decodeOpt s.data = some s := by
  cases hdata : s.data with
  | nil =>
    exfalso
    apply h
    cases s with
    | mk d =>
      simp only [String.data] at hdata
      rw [hdata]
  | cons c t =>
    have hred : decodeOpt (c :: t) = some (String.mk (c :: t)) := rfl
    rw [hred, ← hdata, mkData]

theorem decodeOpt_encodeOpt {o : Option String} (h : o ≠ some "") :
    decodeOpt (encodeOpt o) = o := by
  cases o with
  | none => rfl
  | some s =>
    have hs : s ≠ "" := fun hc => h (by rw [hc])
    exact decodeOpt_data s hs

theorem decodeRow_toRow (i : Instrument) (h : instrumentOk i) :
    decodeRow i.toRow = some i := by
  obtain ⟨h1, h2, h3⟩ := h
  simp only [Instrument.toRow, decodeRow, parseNat?_renderNat, mkData,
    fromCsv_toCsv_instrumentType, fromCsv_toCsv_segment, fromCsv_toCsv_exchange,
    decodeOpt_encodeOpt h1, decodeOpt_encodeOpt h2, decodeOpt_encodeOpt h3]

theorem decodeRows_map (l : List Instrument) (h : ∀ i ∈ l, instrumentOk i) :
    decodeRows (l.map Instrument.toRow) = some l := by
  induction l with
  | nil => rfl
  | cons i l ih =>
    simp [decodeRows, decodeRow_toRow i (h i (by simp)),
      ih (fun x hx => h x (by simp [hx]))]

theorem loadCsv_saveCsv (l : List Instrument) (h : ∀ i ∈ l, instrumentOk i) :
    loadCsv (saveCsv l) = some l := by
  cases l with
  | nil => rfl
  | cons i l =>
    have hrows : ∀ r ∈ headerRow :: (i :: l).map Instrument.toRow, 2 ≤ r.length := by
      intro r hr
      rcases List.mem_cons.1 hr with h | h
      · subst h; decide
      · obtain ⟨x, _, hx⟩ := List.mem_map.1 h
        subst hx
        simp [Instrument.toRow]
    have hparse := parseTable_encode _ hrows
    have hsave : saveCsv (i :: l)
        = encodeTable (headerRow :: (i :: l).map Instrument.toRow) := rfl
    rw [loadCsv, hsave, hparse]
    have hd := decodeRows_map (i :: l) h
    simp only [List.map_cons] at hd
    simp [hd]

/-- Shared round-trip fact: loading right after saving returns the saved
records whenever they contain no present-but-empty optional field. -/
theorem load_after_save (exchange : String) (l : List Instrument)
    (now : Int) (fs : CacheFs) (h : instrumentsOk l) :
    InstrumentCache.load exchange (InstrumentCache.save exchange l now fs)
      = .ok l := by
  unfold InstrumentCache.load InstrumentCache.save
  simp [loadCsv_saveCsv l h]

/-- Claim C1, amended: for every exchange code and every list of
Instrument records in which no optional field is a present-but-empty
string, `InstrumentCache::save` followed by `InstrumentCache::load`
returns a list equal to the input field-for-field — including records
with all optional fields present and records with all of them absent.
(The unamended claim fails for a record whose `expiry` is `Some("")`:
the CSV encodings of `Some("")` and `None` coincide.) -/
theorem C1_save_load_roundtrip (exchange : String) (l : List Instrument)
    (now : Int) (fs : CacheFs) (h : instrumentsOk l) :
    InstrumentCache.load exchange (InstrumentCache.save exchange l now fs)
      = .ok l :=
  load_after_save exchange l now fs h

set_option maxRecDepth 40000 in
/-- Witness for C1: the round trip evaluated on a concrete list holding
one all-present and one all-absent record. -/
theorem C1_save_load_roundtrip_witness :
    instrumentsOk [instAllPresent, instAllAbsent] ∧
      InstrumentCache.load "NSE"
        (InstrumentCache.save "NSE" [instAllPresent, instAllAbsent] 0 emptyFs)
        = .ok [instAllPresent, instAllAbsent] :=
  ⟨by decide, C1_save_load_roundtrip "NSE" _ 0 emptyFs (by decide)⟩

set_option maxRecDepth 40000 in
/-- Counterexample to C1 as stated: saving a record whose `expiry` is
`Some("")` and loading it back yields `expiry = None`, not the input. -/
theorem C1_roundtrip_counterexample :
    InstrumentCache.load "NSE"
        (InstrumentCache.save "NSE" [instEmptyExpiry] 0 emptyFs)
        = .ok [{ instEmptyExpiry with expiry := none }] ∧
      InstrumentCache.load "NSE"
        (InstrumentCache.save "NSE" [instEmptyExpiry] 0 emptyFs)
        ≠ .ok [instEmptyExpiry] := by
  exact ⟨by decide, by decide⟩

/-- Claim C8, amended: `loadOrRefresh` performs exactly one network fetch
followed by `save` when `forceRefresh` is true or the cache for the
exchange is not valid, and otherwise performs zero network calls and
returns the persisted records.  In particular, starting from an empty
cache, the first call fetches once and persists, and an immediate repeat
call with `forceRefresh = false` makes no network call and returns an
identical list whenever the fetched records contain no present-but-empty
optional field.  (The unamended claim promises an identical list for
every fetched list; it fails when a fetched record has `expiry =
Some("")`, whose persisted form decodes to `None`.) -/
theorem C8_load_or_refresh_contract (ex : String) (l : List Instrument)
    (fetched2 : Except ApiError (List Instrument)) (now now2 : Int) (fs : CacheFs)
    (hmiss : fs.files (cacheKey ex) = none) (hok : instrumentsOk l)
    (hage : (now2 - now).tdiv 3600 < 24) :
    InstrumentCache.load_or_refresh ex false (.ok l) now fs
      = (.ok l, InstrumentCache.save ex l now fs, 1) ∧
    InstrumentCache.load_or_refresh ex false fetched2 now2
        (InstrumentCache.save ex l now fs)
      = (.ok l, InstrumentCache.save ex l now fs, 0) ∧
    (∀ (force : Bool) fetched now3 fs3,
      (force = true ∨ InstrumentCache.isValid ex fs3 now3 = false) →
      (InstrumentCache.load_or_refresh ex force fetched now3 fs3).2.2 = 1) ∧
    (∀ fetched now3 fs3, InstrumentCache.isValid ex fs3 now3 = true →
      (InstrumentCache.load_or_refresh ex false fetched now3 fs3).2.2 = 0) := by
  have hvalid0 : InstrumentCache.isValid ex fs now = false := by
    unfold InstrumentCache.isValid
    rw [hmiss]
  have hvalid1 : InstrumentCache.isValid ex (InstrumentCache.save ex l now fs) now2
      = true := by
    unfold InstrumentCache.isValid InstrumentCache.save
    simp only [if_pos rfl]
    simpa using hage
  refine ⟨?_, ?_, ?_, ?_⟩
  · unfold InstrumentCache.load_or_refresh
    rw [hvalid0]
    rfl
  · unfold InstrumentCache.load_or_refresh
    rw [hvalid1]
    simp [load_after_save ex l now fs hok]
  · intro force fetched now3 fs3 hf
    unfold InstrumentCache.load_or_refresh
    rcases hf with hf | hf
    · rw [hf]
      simp [InstrumentCache.refresh]
      cases fetched <;> simp [InstrumentCache.refresh]
    · rw [hf]
      simp [InstrumentCache.refresh]
      cases fetched <;> simp [InstrumentCache.refresh]
  · intro fetched now3 fs3 hv
    unfold InstrumentCache.load_or_refresh
    rw [hv]
    simp only [Bool.false_or, Bool.not_true, if_neg]
    cases InstrumentCache.load ex fs3 <;> simp

set_option maxRecDepth 40000 in
/-- Witness for C8 at concrete inputs: empty cache, a one-record fetch,
and a repeat call one hour later whose own network outcome would be a
transport failure (it is never consulted). -/
theorem C8_load_or_refresh_witness :
    (emptyFs.files (cacheKey "NSE") = none ∧ instrumentsOk [instAllPresent]
      ∧ ((3600 : Int) - 0).tdiv 3600 < 24) ∧
    InstrumentCache.load_or_refresh "NSE" false (.ok [instAllPresent]) 0 emptyFs
      = (.ok [instAllPresent], InstrumentCache.save "NSE" [instAllPresent] 0 emptyFs, 1) ∧
    InstrumentCache.load_or_refresh "NSE" false (.error (.transport "offline")) 3600
        (InstrumentCache.save "NSE" [instAllPresent] 0 emptyFs)
      = (.ok [instAllPresent], InstrumentCache.save "NSE" [instAllPresent] 0 emptyFs, 0) := by
  have h := C8_load_or_refresh_contract "NSE" [instAllPresent]
    (.error (.transport "offline")) 0 3600 emptyFs (by decide) (by decide) (by decide)
  exact ⟨⟨by decide, by decide, by decide⟩, h.1, h.2.1⟩

set_option maxRecDepth 40000 in
/-- Counterexample to C8 as stated: the repeat call makes zero network
calls but does not return a list identical to the one the first call
fetched and returned. -/
theorem C8_identical_list_counterexample :
    c8FirstCall.1 = .ok [instEmptyExpiry] ∧
    c8FirstCall.2.2 = 1 ∧
    c8SecondCall.2.2 = 0 ∧
    c8SecondCall.1 = .ok [{ instEmptyExpiry with expiry := none }] ∧
    c8SecondCall.1 ≠ .ok [instEmptyExpiry] := by
  exact ⟨by decide, by decide, by decide, by decide, by decide⟩

/-! ## Claims C2, C3, C4, C7 -/

/-- Claim C2, amended: for every operation that requires authentication
(instruments, quotes, orders, portfolio, margins, GTT), whenever the
currently stored access token is ABSENT, the operation fails with the
not-authenticated error and no network request is issued.  (The
unamended claim also requires this for a present-but-EMPTY token; the
code only checks for absence and sends the request with an empty token,
see the counterexample.) -/
theorem C2_absent_token_fails_before_network (c : KiteConnectClient)
    (op : AuthedOp) (net : HttpOutcome) (h : c.access_token = none) :
    c.runOp op net = some (.error .notAuthenticated, 0) := by
  unfold KiteConnectClient.runOp runAuthedCall KiteConnectClient.build_auth_request
    KiteConnectClient.get_access_token
  rw [h]

/-- Witness for C2: a fresh client holds no token, and a representative
operation fails without any send even though the network would answer. -/
theorem C2_absent_token_witness :
    clientNoToken.access_token = none ∧
      clientNoToken.runOp .orders (.response 200 (asciiBytes "payload"))
        = some (.error .notAuthenticated, 0) :=
  ⟨rfl, C2_absent_token_fails_before_network clientNoToken .orders
    (.response 200 (asciiBytes "payload")) rfl⟩

/-- Counterexample to C2 as stated: with a stored but EMPTY token the
operation does not fail with the not-authenticated error and one network
request is issued. -/
theorem C2_empty_token_counterexample :
    clientEmptyToken.access_token = some "" ∧
    clientEmptyToken.runOp .orders (.response 200 (asciiBytes "payload"))
      = some (.ok (asciiBytes "payload"), 1) ∧
    clientEmptyToken.runOp .orders (.response 200 (asciiBytes "payload"))
      ≠ some (.error .notAuthenticated, 0) := by
  exact ⟨rfl, by decide, by decide⟩

/-- Claim C3: on a successful exchange the stored token is replaced by
the returned token with a config expiry of now + 24h (86400 s), in one
state update; on every failure — transport error, non-2xx response (for
example a rejected checksum), or a malformed success body — the previous
client and config state is exactly unchanged and a classified error is
surfaced. -/
theorem C3_exchange_token_state (c : KiteConnectClient) (config : Config)
    (now : Int) :
    (∀ uid token, login c config (.success uid token) now
        = some (c.set_access_token token,
            { config with access_token := some token
                        , token_expiry := some (now + 86400) },
            .ok token)) ∧
    (∀ m, login c config (.transportErr m) now
        = some (c, config, .error (.transport m))) ∧
    (∀ status body e, handle_error status body = some e →
        login c config (.httpError status body) now
          = some (c, config, .error e)) ∧
    (login c config .malformed now = some (c, config, .error .parseJson)) := by
  refine ⟨fun uid token => rfl, fun m => rfl, ?_, rfl⟩
  intro status body e he
  have hx : KiteConnectClient.exchange_token c (.httpError status body)
      = match handle_error status body with
        | none => none
        | some err => some (c, .error err) := rfl
  unfold login
  rw [hx, he]

/-- Witness for C3 at concrete inputs: a 403 (wrong checksum) leaves the
previously stored token state untouched and surfaces the classified
error; a success replaces it with the new token and expiry now + 86400. -/
theorem C3_exchange_token_witness :
    login cPrior cfgPrior (.httpError 403 (asciiBytes "invalid checksum")) 1000
      = some (cPrior, cfgPrior,
          .error (.forbidden (asciiBytes "invalid checksum"))) ∧
    login cPrior cfgPrior (.success "AB1234" "newtoken") 1000
      = some (cPrior.set_access_token "newtoken",
          { cfgPrior with access_token := some "newtoken"
                        , token_expiry := some 87400 },
          .ok "newtoken") := by
  have h := C3_exchange_token_state cPrior cfgPrior 1000
  exact ⟨h.2.2.1 403 (asciiBytes "invalid checksum") _ (by decide),
    h.1 "AB1234" "newtoken"⟩

theorem utf8Bytes_append (a b : String) :
    utf8Bytes (a ++ b) = utf8Bytes a ++ utf8Bytes b := by
  show ((a ++ b).data.map utf8EncodeChar).flatten = _
  have hd : (a ++ b).data = a.data ++ b.data := rfl
  rw [hd, List.map_append, List.flatten_append]
  rfl

/-- Claim C4: for every api_key, request_token and api_secret, the token
exchange computes checksum = hex(SHA-256(api_key ∥ request_token ∥
api_secret)) over exactly that concatenation in that order, and builds
an unauthenticated POST to the session endpoint whose body contains
exactly the fields api_key, request_token and checksum. -/
theorem C4_exchange_request_shape (api_key api_secret request_token : String) :
    ((KiteConnectClient.new api_key api_secret).exchange_token_request
        request_token).method = "POST" ∧
    ((KiteConnectClient.new api_key api_secret).exchange_token_request
        request_token).url = "https://api.kite.trade/session/token" ∧
    ((KiteConnectClient.new api_key api_secret).exchange_token_request
        request_token).body
      = [ ("api_key", api_key), ("request_token", request_token)
        , ("checksum", specChecksum api_key request_token api_secret) ] ∧
    (∀ v, ("Authorization", v) ∉
      ((KiteConnectClient.new api_key api_secret).exchange_token_request
        request_token).headers) := by
  refine ⟨rfl, rfl, ?_, ?_⟩
  · have hck : sha256_digest (api_key ++ request_token ++ api_secret)
        = specChecksum api_key request_token api_secret := by
      unfold sha256_digest specChecksum
      rw [utf8Bytes_append, utf8Bytes_append]
    show [ ("api_key", api_key), ("request_token", request_token)
         , ("checksum", sha256_digest (api_key ++ request_token ++ api_secret)) ]
      = _
    rw [hck]
  · intro v hv
    have hh : ((KiteConnectClient.new api_key api_secret).exchange_token_request
        request_token).headers
        = [("X-Kite-Version", "3"), ("User-Agent", "zerodha-cli/1.0.0")] := rfl
    rw [hh] at hv
    rcases List.mem_cons.1 hv with h | h
    · have h1 : "Authorization" = "X-Kite-Version" := congrArg Prod.fst h
      exact absurd h1 (by decide)
    · rcases List.mem_cons.1 h with h2 | h2
      · have h1 : "Authorization" = "User-Agent" := congrArg Prod.fst h2
        exact absurd h1 (by decide)
      · simp at h2

/-- Claim C7, amended: the core `logout` clears the locally stored
access token and expiry unconditionally — it performs no remote call at
all, so local consistency never depends on network success; the CLI
duplicate's `logout`, however, clears the local token only when the
remote invalidate call succeeds, and on invalidate failure leaves the
local token state unchanged and propagates the error.  (The unamended
claim requires the local state to be cleared for every outcome of the
invalidate call; the CLI path violates it, see the counterexample.) -/
theorem C7_logout_behavior :
    (∀ config : Config,
      (logout config).access_token = none ∧ (logout config).token_expiry = none) ∧
    (∀ (cfg : CliConfig) (k t : String),
      cfg.api_key = some k → cfg.access_token = some t →
      cliLogout cfg (.ok ()) = ({ cfg with access_token := none }, .ok ()) ∧
      (∀ e, cliLogout cfg (.error e) = (cfg, .error e))) := by
  constructor
  · intro config
    exact ⟨rfl, rfl⟩
  · intro cfg k t hk ht
    constructor
    · unfold cliLogout
      rw [hk, ht]
    · intro e
      unfold cliLogout
      rw [hk, ht]

/-- Witness for C7: the concrete CLI config with a stored token is
cleared on invalidate success, and unchanged on invalidate failure. -/
theorem C7_logout_witness :
    cliLogout cliCfg0 (.ok ()) = ({ cliCfg0 with access_token := none }, .ok ()) ∧
    cliLogout cliCfg0 (.error (.transport "offline"))
      = (cliCfg0, .error (.transport "offline")) := by
  have h := (C7_logout_behavior).2 cliCfg0 "key" "tok" rfl rfl
  exact ⟨h.1, h.2 (.transport "offline")⟩

/-- Counterexample to C7 as stated: when the remote invalidate call
fails, the CLI `logout` leaves the local access token in place instead
of clearing it. -/
theorem C7_logout_counterexample :
    (cliLogout ⟨some "key", some "tok"⟩ (.error (.transport "offline"))).1.access_token
      = some "tok" ∧
    (cliLogout ⟨some "key", some "tok"⟩ (.error (.transport "offline"))).1.access_token
      ≠ none := by
  exact ⟨rfl, by decide⟩

theorem getLoop_first_ok (attempts : Nat → SendOutcome) :
    ∀ (k gas retries : Nat) (sleeps : List Nat) (status : Nat) (body : List Nat),
      k ≤ gas →
      (∀ j, retries ≤ j → j < retries + k → ∃ m, attempts j = .err m) →
      attempts (retries + k) = .ok status body →
      getLoop attempts gas retries sleeps
        = ⟨retries + k + 1,
           sleeps ++ (List.range k).map (fun i => 100 * (retries + i + 1)),
           .ok (status, body)⟩ := by
  intro k
  induction k with
  | zero =>
    intro gas retries sleeps status body _ _ hk
    simp only [Nat.add_zero] at hk
    cases gas <;> simp [getLoop, hk]
  | succ k ih =>
    intro gas retries sleeps status body hkg hbefore hk
    obtain ⟨m, hm⟩ := hbefore retries (Nat.le_refl _) (by omega)
    cases gas with
    | zero => omega
    | succ gas =>
      have hrec := ih gas (retries + 1) (sleeps ++ [100 * (retries + 1)])
        status body (by omega)
        (fun j hj1 hj2 => hbefore j (by omega) (by omega))
        (by rw [show retries + 1 + k = retries + (k + 1) by omega]; exact hk)
      simp only [getLoop, hm]
      rw [hrec]
      have hsleeps : (sleeps ++ [100 * (retries + 1)])
            ++ (List.range k).map (fun i => 100 * (retries + 1 + i + 1))
          = sleeps ++ (List.range (k + 1)).map (fun i => 100 * (retries + i + 1)) := by
        rw [List.range_succ_eq_map]
        simp only [List.map_cons, List.map_map, List.append_assoc]
        have : ((fun i => 100 * (retries + i + 1)) ∘ Nat.succ)
            = (fun i => 100 * (retries + 1 + i + 1)) := by
          funext i
          simp [Function.comp]
          ring
        rw [this]
        simp [List.singleton_append]
      rw [hsleeps]
      have : retries + 1 + k + 1 = retries + (k + 1) + 1 := by omega
      rw [this]

theorem getLoop_all_err (attempts : Nat → SendOutcome) :
    ∀ (gas retries : Nat) (sleeps : List Nat) (m : Nat → String),
      (∀ j, retries ≤ j → j ≤ retries + gas → attempts j = .err (m j)) →
      getLoop attempts gas retries sleeps
        = ⟨retries + gas + 1,
           sleeps ++ (List.range gas).map (fun i => 100 * (retries + i + 1)),
           .error (m (retries + gas))⟩ := by
  intro gas
  induction gas with
  | zero =>
    intro retries sleeps m hall
    have h0 := hall retries (Nat.le_refl _) (by omega)
    simp [getLoop, h0]
  | succ gas ih =>
    intro retries sleeps m hall
    have h0 := hall retries (Nat.le_refl _) (by omega)
    simp only [getLoop, h0]
    have hrec := ih (retries + 1) (sleeps ++ [100 * (retries + 1)]) m
      (fun j hj1 hj2 => hall j (by omega) (by omega))
    rw [hrec]
    have hsleeps : (sleeps ++ [100 * (retries + 1)])
          ++ (List.range gas).map (fun i => 100 * (retries + 1 + i + 1))
        = sleeps ++ (List.range (gas + 1)).map (fun i => 100 * (retries + i + 1)) := by
      rw [List.range_succ_eq_map]
      simp only [List.map_cons, List.map_map, List.append_assoc]
      have : ((fun i => 100 * (retries + i + 1)) ∘ Nat.succ)
          = (fun i => 100 * (retries + 1 + i + 1)) := by
        funext i
        simp [Function.comp]
        ring
      rw [this]
      simp [List.singleton_append]
    rw [hsleeps]
    have h1 : retries + 1 + gas + 1 = retries + (gas + 1) + 1 := by omega
    have h2 : retries + 1 + gas = retries + (gas + 1) := by omega
    rw [h1, h2]

theorem getLoop_sends_le (attempts : Nat → SendOutcome) :
    ∀ (gas retries : Nat) (sleeps : List Nat),
      (getLoop attempts gas retries sleeps).sends ≤ retries + gas + 1 := by
  intro gas
  induction gas with
  | zero =>
    intro retries sleeps
    cases h : attempts retries <;> simp [getLoop, h]
  | succ gas ih =>
    intro retries sleeps
    cases h : attempts retries with
    | ok status body => simp [getLoop, h]
    | err m =>
      simp only [getLoop, h]
      have := ih (retries + 1) (sleeps ++ [100 * (retries + 1)])
      omega

/-- Claim C5: only transport-level send failures are retried, up to 3
retry attempts with backoff attempt × 100 ms; every HTTP response —
whatever its status, 2xx or not — is returned from the first send that
produces it with no retry; when all four sends fail the last transport
error surfaces verbatim, with no default substituted; the core client's
`execute` performs exactly one send and surfaces a transport failure
immediately. -/
theorem C5_retry_policy (attempts : Nat → SendOutcome) :
    (∀ k status body, k ≤ 3 →
      (∀ j, j < k → ∃ m, attempts j = .err m) →
      attempts k = .ok status body →
      RateLimitedClient.get attempts
        = ⟨k + 1, (List.range k).map (fun i => 100 * (i + 1)),
           .ok (status, body)⟩) ∧
    (∀ m : Nat → String, (∀ j, j ≤ 3 → attempts j = .err (m j)) →
      RateLimitedClient.get attempts = ⟨4, [100, 200, 300], .error (m 3)⟩) ∧
    (RateLimitedClient.get attempts).sends ≤ 4 ∧
    (∀ m, executeSend (.transportErr m) = some (.error (.transport m), 1)) := by
  refine ⟨?_, ?_, ?_, fun m => rfl⟩
  · intro k status body hk hbefore hok
    have h := getLoop_first_ok attempts k 3 0 [] status body hk
      (fun j _ hj => hbefore j (by omega)) (by simpa using hok)
    unfold RateLimitedClient.get
    rw [h]
    simp
  · intro m hall
    have h := getLoop_all_err attempts 3 0 [] m
      (fun j _ hj => hall j (by omega))
    unfold RateLimitedClient.get
    rw [h]
    simp
    decide
  · have := getLoop_sends_le attempts 3 0 []
    unfold RateLimitedClient.get
    omega

/-- Witness for C5: after two transport failures the third send's
response — a non-2xx 500 — is returned at once, after sleeps of 100 and
200 ms and exactly 3 sends. -/
theorem C5_retry_policy_witness :
    RateLimitedClient.get attemptsTwoErr
      = ⟨3, [100, 200], .ok (500, asciiBytes "oops")⟩ := by
  have h := (C5_retry_policy attemptsTwoErr).1 2 500 (asciiBytes "oops")
    (by omega)
    (fun j hj => ⟨"connection timed out", by
      interval_cases j <;> rfl⟩)
    (by rfl)
  rw [h]
  rfl

theorem acquireGo_step_some {α : Type} (chk : Nat → Option α)
    (t0 fuel k : Nat) (a : α) (h : chk (t0 + 100 * k) = some a) :
    acquireGo chk t0 (fuel + 1) k = .ok (a, t0 + 100 * k) := by
  simp [acquireGo, h]

theorem acquireGo_step_none {α : Type} (chk : Nat → Option α)
    (t0 fuel k : Nat) (h : chk (t0 + 100 * k) = none) (hk : 100 * k ≤ 30000) :
    acquireGo chk t0 (fuel + 1) k = acquireGo chk t0 fuel (k + 1) := by
  simp [acquireGo, h]
  omega

theorem acquireGo_first_ok {α : Type} (chk : Nat → Option α) (t0 : Nat) :
    ∀ (k start fuel : Nat) (a : α), start + k ≤ 301 → k < fuel →
      (∀ j, start ≤ j → j < start + k → chk (t0 + 100 * j) = none) →
      chk (t0 + 100 * (start + k)) = some a →
      acquireGo chk t0 fuel start = .ok (a, t0 + 100 * (start + k)) := by
  intro k
  induction k with
  | zero =>
    intro start fuel a _ hfuel _ hk
    cases fuel with
    | zero => omega
    | succ fuel =>
      simpa using acquireGo_step_some chk t0 fuel start a (by simpa using hk)
  | succ k ih =>
    intro start fuel a hb hfuel hbefore hk
    cases fuel with
    | zero => omega
    | succ fuel =>
      rw [acquireGo_step_none chk t0 fuel start
        (hbefore start (Nat.le_refl _) (by omega)) (by omega)]
      have := ih (start + 1) fuel a (by omega) (by omega)
        (fun j hj1 hj2 => hbefore j (by omega) (by omega))
        (by rw [show start + 1 + k = start + (k + 1) by omega]; exact hk)
      rw [this]
      rw [show start + 1 + k = start + (k + 1) by omega]

theorem acquireGo_timeout {α : Type} (chk : Nat → Option α) (t0 : Nat) :
    ∀ (fuel start : Nat), start ≤ 301 → 301 - start < fuel →
      (∀ j, start ≤ j → j ≤ 301 → chk (t0 + 100 * j) = none) →
      acquireGo chk t0 fuel start = .error (t0 + 30100) := by
  intro fuel
  induction fuel with
  | zero => omega
  | succ fuel ih =>
    intro start hs hf hall
    by_cases h301 : start = 301
    · subst h301
      have hc := hall 301 (Nat.le_refl _) (Nat.le_refl _)
      simp [acquireGo, hc]
    · rw [acquireGo_step_none chk t0 fuel start
        (hall start (Nat.le_refl _) hs) (by omega)]
      exact ih (start + 1) (by omega) (by omega)
        (fun j hj1 hj2 => hall j (by omega) hj2)

/-- Evaluation of `check` on a bucket last touched at `t0`, `d` ms later. -/
theorem Bucket.check_offset (u t0 d : Nat) :
    Bucket.check ⟨u, t0⟩ (t0 + d)
      = if 1000 ≤ min 3000 (u + 3 * d)
        then some ⟨min 3000 (u + 3 * d) - 1000, t0 + d⟩ else none := by
  simp [Bucket.check, Bucket.avail]

/-- Claim C9: `acquire()` returns successfully at the first poll at
which a credit is available, and fails with the rate-limit timeout, not
dropped, when no credit becomes available at any poll within the
30-second bound; with bucket capacity 3, three acquisitions at the same
instant from a full bucket all complete immediately, and a fourth then
completes successfully — never dropped — only at t0 + 400 ms, which is
at least the ≈ 1/3 s refill interval (≥ 334 ms). -/
theorem C9_rate_limiter (t0 : Nat) :
    (∀ (b : Bucket), 1000 ≤ b.avail t0 →
      RateLimiter.acquire b t0 = .ok (⟨b.avail t0 - 1000, t0⟩, t0)) ∧
    (∀ {α : Type} (chk : Nat → Option α) (k : Nat) (a : α), k ≤ 301 →
      (∀ j, j < k → chk (t0 + 100 * j) = none) →
      chk (t0 + 100 * k) = some a →
      acquireGo chk t0 302 0 = .ok (a, t0 + 100 * k)) ∧
    (∀ {α : Type} (chk : Nat → Option α),
      (∀ j, j ≤ 301 → chk (t0 + 100 * j) = none) →
      acquireGo chk t0 302 0 = .error (t0 + 30100)) ∧
    (RateLimiter.acquire (Bucket.full t0) t0 = .ok (⟨2000, t0⟩, t0) ∧
     RateLimiter.acquire ⟨2000, t0⟩ t0 = .ok (⟨1000, t0⟩, t0) ∧
     RateLimiter.acquire ⟨1000, t0⟩ t0 = .ok (⟨0, t0⟩, t0) ∧
     RateLimiter.acquire ⟨0, t0⟩ t0 = .ok (⟨200, t0 + 400⟩, t0 + 400) ∧
     334 ≤ 400) := by
  have himm : ∀ (b : Bucket), 1000 ≤ b.avail t0 →
      RateLimiter.acquire b t0 = .ok (⟨b.avail t0 - 1000, t0⟩, t0) := by
    intro b hb
    unfold RateLimiter.acquire
    have hc : b.check (t0 + 100 * 0) = some ⟨b.avail t0 - 1000, t0⟩ := by
      simp [Bucket.check, hb]
    simpa using acquireGo_step_some b.check t0 301 0 _ hc
  refine ⟨himm, ?_, ?_, ?_, ?_, ?_, ?_, by omega⟩
  · intro α chk k a hk hbefore hka
    simpa using acquireGo_first_ok chk t0 k 0 302 a (by omega) (by omega)
      (fun j _ hj => hbefore j (by omega)) (by simpa using hka)
  · intro α chk hall
    exact acquireGo_timeout chk t0 302 0 (by omega) (by omega)
      (fun j _ hj => hall j hj)
  · have h := himm (Bucket.full t0) (by simp [Bucket.avail, Bucket.full])
    rw [h]
    simp [Bucket.avail, Bucket.full]
  · have h := himm ⟨2000, t0⟩ (by simp [Bucket.avail])
    rw [h]
    simp [Bucket.avail]
  · have h := himm ⟨1000, t0⟩ (by simp [Bucket.avail])
    rw [h]
    simp [Bucket.avail]
  · unfold RateLimiter.acquire
    have hbefore : ∀ j, (0 : Nat) ≤ j → j < 0 + 4 →
        Bucket.check ⟨0, t0⟩ (t0 + 100 * j) = none := by
      intro j _ hj
      rw [Bucket.check_offset]
      interval_cases j <;> simp
    have hka : Bucket.check ⟨0, t0⟩ (t0 + 100 * (0 + 4))
        = some ⟨200, t0 + 400⟩ := by
      rw [show (100 : Nat) * (0 + 4) = 400 by norm_num, Bucket.check_offset]
      norm_num
    have := acquireGo_first_ok (Bucket.check ⟨0, t0⟩) t0 4 0 302
      ⟨200, t0 + 400⟩ (by omega) (by omega) hbefore hka
    rw [this]

/-- Witness for C9: the timeout branch with a check that never succeeds
(for example because concurrent acquirers always win the race), and an
immediate acquisition from a concrete full bucket at t0 = 0. -/
theorem C9_rate_limiter_witness :
    acquireGo (fun _ => (none : Option Unit)) 0 302 0 = .error 30100 ∧
    RateLimiter.acquire (Bucket.full 0) 0 = .ok (⟨2000, 0⟩, 0) := by
  have h := C9_rate_limiter 0
  refine ⟨?_, ?_⟩
  · have ht := h.2.2.1 (fun _ => (none : Option Unit)) (fun j _ => rfl)
    simpa using ht
  · have hi := h.1 (Bucket.full 0) (by decide)
    rw [hi]
    rfl

theorem isCharBoundary_len (s : List Nat) : isCharBoundary s s.length = true := by
  unfold isCharBoundary
  by_cases h0 : s.length = 0
  · simp [h0]
  · rw [if_neg h0, dif_neg (lt_irrefl _)]
    simp

theorem isCharBoundary_of_byte (s : List Nat) (i : Nat) (h : i < s.length)
    (hc : isContinuation (s.get ⟨i, h⟩) = false) : isCharBoundary s i = true := by
  unfold isCharBoundary
  by_cases h0 : i = 0
  · simp [h0]
  · rw [if_neg h0, dif_pos h]
    rw [List.get_eq_getElem] at hc
    simp [hc]

/-- Behaviour of `replace_range` over a window that starts at an anchor sitting right
after `a` and extends `d` bytes into `b`: removes the anchor and the
first `d` bytes of `b`, inserting the replacement. -/
theorem replaceRange_anchor (a mid b repl : List Nat) (d : Nat)
    (hd : d ≤ b.length)
    (hmid : ∃ m ms, mid = m :: ms ∧ isContinuation m = false)
    (hbd : ∀ h : d < b.length, isContinuation (b.get ⟨d, h⟩) = false) :
    replaceRange ((a ++ mid) ++ b) a.length (a.length + mid.length + d) repl
      = some ((a ++ repl) ++ b.drop d) := by
  obtain ⟨m, ms, hm, hmc⟩ := hmid
  have hmlen : 0 < mid.length := by rw [hm]; simp
  have hlen : ((a ++ mid) ++ b).length = a.length + mid.length + b.length := by
    simp only [List.length_append]
  have hb1 : isCharBoundary ((a ++ mid) ++ b) a.length = true := by
    have hival : a.length < ((a ++ mid) ++ b).length := by rw [hlen]; omega
    apply isCharBoundary_of_byte _ _ hival
    have hlt : a.length < (a ++ mid).length := by simp; omega
    rw [List.get_eq_getElem, List.getElem_append_left hlt,
      List.getElem_append_right (Nat.le_refl _)]
    simpa [hm] using hmc
  have hb2 : isCharBoundary ((a ++ mid) ++ b) (a.length + mid.length + d) = true := by
    by_cases hdb : d = b.length
    · have hstop : a.length + mid.length + d = ((a ++ mid) ++ b).length := by
        rw [hlen]; omega
      rw [hstop]
      exact isCharBoundary_len _
    · have hdlt : d < b.length := by omega
      have hival : a.length + mid.length + d < ((a ++ mid) ++ b).length := by
        rw [hlen]; omega
      apply isCharBoundary_of_byte _ _ hival
      have hge : (a ++ mid).length ≤ a.length + mid.length + d := by simp
      rw [List.get_eq_getElem, List.getElem_append_right hge]
      have hidx := hbd hdlt
      rw [List.get_eq_getElem] at hidx
      simpa [Nat.add_sub_cancel_left] using hidx
  unfold replaceRange
  rw [if_pos ⟨by omega, hb1, hb2⟩]
  have htake : ((a ++ mid) ++ b).take a.length = a := by
    rw [List.append_assoc]
    exact List.take_left a (mid ++ b)
  have hdrop : ((a ++ mid) ++ b).drop (a.length + mid.length + d) = b.drop d := by
    have : a.length + mid.length + d = (a ++ mid).length + d := by simp
    rw [this, List.drop_append]
  rw [htake, hdrop]

theorem accessTokenAnchor_len : accessTokenAnchor.length = 14 := by decide

theorem isContinuation_eq_false_of_lt {x : Nat} (h : x < 128) :
    isContinuation x = false := by
  simp [isContinuation]
  omega

theorem apiSecretAnchor_len : apiSecretAnchor.length = 12 := by decide

/-- Claim C6, amended: `redact_secrets` masks a fixed-width window only —
20 bytes from the first `api_secret":` anchor and 30 bytes from the
first `access_token":` anchor (anchor plus the following 8 resp. 16
bytes), then rewrites every `token` to `token ***`; value bytes beyond
the window and occurrences after the first are left in place, so a long
secret's tail, or a second occurrence, still appears in the surfaced
error value (see the counterexample). -/
theorem C6_redaction_window :
    (∀ (a b : List Nat),
      findSub apiSecretAnchor ((a ++ accessTokenAnchor) ++ b) = none →
      findSub accessTokenAnchor ((a ++ accessTokenAnchor) ++ b) = some a.length →
      16 ≤ b.length → (∀ x ∈ b, x < 128) →
      redactSecrets ((a ++ accessTokenAnchor) ++ b)
        = some (replaceTokenAll ((a ++ accessTokenMask) ++ b.drop 16))) ∧
    (∀ (a b : List Nat),
      findSub apiSecretAnchor ((a ++ apiSecretAnchor) ++ b) = some a.length →
      8 ≤ b.length → (∀ x ∈ b, x < 128) →
      findSub accessTokenAnchor ((a ++ apiSecretMask) ++ b.drop 8) = none →
      redactSecrets ((a ++ apiSecretAnchor) ++ b)
        = some (replaceTokenAll ((a ++ apiSecretMask) ++ b.drop 8))) := by
  constructor
  · intro a b h1 h2 h3 h4
    have hbd : ∀ h : 16 < b.length, isContinuation (b.get ⟨16, h⟩) = false := by
      intro h
      exact isContinuation_eq_false_of_lt (h4 _ (List.get_mem b 16 h))
    have hrr := replaceRange_anchor a accessTokenAnchor b accessTokenMask 16 h3
      ⟨97, asciiBytes "ccess_token\":", by decide, by decide⟩ hbd
    rw [accessTokenAnchor_len] at hrr
    have h30 : a.length + 14 + 16 = a.length + 30 := by omega
    rw [h30] at hrr
    have hs1 : redactStep1 ((a ++ accessTokenAnchor) ++ b)
        = some ((a ++ accessTokenAnchor) ++ b) := by
      unfold redactStep1
      rw [h1]
    unfold redactSecrets
    simp only [hs1, h2, hrr]
  · intro a b h1 h3 h4 h5
    have hbd : ∀ h : 8 < b.length, isContinuation (b.get ⟨8, h⟩) = false := by
      intro h
      exact isContinuation_eq_false_of_lt (h4 _ (List.get_mem b 8 h))
    have hrr := replaceRange_anchor a apiSecretAnchor b apiSecretMask 8 h3
      ⟨97, asciiBytes "pi_secret\":", by decide, by decide⟩ hbd
    rw [apiSecretAnchor_len] at hrr
    have h20 : a.length + 12 + 8 = a.length + 20 := by omega
    rw [h20] at hrr
    have hs1 : redactStep1 ((a ++ apiSecretAnchor) ++ b)
        = some ((a ++ apiSecretMask) ++ b.drop 8) := by
      unfold redactStep1
      simp only [h1]
      exact hrr
    unfold redactSecrets
    simp only [hs1, h5]

/-- Witness for C6: on a concrete error body holding one access-token
field, the fixed 30-byte window (anchor plus 16 bytes) is replaced and
the remaining 5 value bytes survive. -/
theorem C6_redaction_window_witness :
    redactSecrets ((c6WitnessLead ++ accessTokenAnchor) ++ c6WitnessTail)
      = some (replaceTokenAll
          ((c6WitnessLead ++ accessTokenMask) ++ c6WitnessTail.drop 16)) ∧
    hasSub (asciiBytes "AAAAA")
      (replaceTokenAll ((c6WitnessLead ++ accessTokenMask) ++ c6WitnessTail.drop 16))
      = true := by
  refine ⟨(C6_redaction_window).1 c6WitnessLead c6WitnessTail (by decide) (by decide)
    (by decide) ?_, by decide⟩
  decide

/-- Counterexample to C6 as stated: redaction succeeds, but the full
16-byte value of the second access-token field appears verbatim in the
surfaced error value. -/
theorem C6_second_occurrence_counterexample :
    (redactSecrets c6CounterInput).isSome = true ∧
    hasSub (asciiBytes "BBBBBBBBBBBBBBBB")
        ((redactSecrets c6CounterInput).getD []) = true := by
  exact ⟨by decide, by decide⟩

/-- Claim C10: `redact_secrets` evaluated at the failing inputs — the
code panics (modelled as `none`) where the claim requires it to return
normally: when the anchor sits fewer than 20 (resp. 30) bytes before the
end, and when the fixed window ends inside a multi-byte character. -/
theorem C10_redact_secrets_panics :
    redactSecrets c10ShortInput = none ∧
    redactSecrets c10MultibyteInput = none := by
  exact ⟨by decide, by decide⟩

end ZerodhaCli
